import Mathlib

/-!
# Verification of the treex `Optimizer` adapter (`treex/optimizer.py`)

This file gives a shallow embedding of the `Optimizer` adapter class of
`treex/optimizer.py` and proves the behavioural properties claimed by the
specification.

## The embedding

Parameter / gradient trees ("pytrees") are modelled by the inductive type
`Tree`: numeric leaves (modelled as rationals, standing for rank-0 arrays)
carrying a treex field annotation, and containers encoded as cons-cells of
subtrees (`Tree.nil` / `Tree.cons`), which represent the children lists of
mapping/sequence scaffolds.

The wrapped optax gradient transformation is a pair of pure functions
`init : params -> state` and `update : (grads, state, params) -> (updates, state)`
over an opaque state type `σ` (`GradientTransformation`).

Python instance methods that mutate the receiver are modelled by returning
the receiver's value after the call alongside the method's result:
* `Optimizer.init` returns `(receiver after the call, returned new instance)`;
* `Optimizer.apply_updates` returns `(receiver after the call, result or error)`.

Failures (`assert`, `raise ValueError`, and structural errors propagated
from the tree reconstruction / elementwise combination steps) are modelled
with `Except OptError`.

The helpers `annotation_map` and `module_update` live in
`treex/tree_object.py`, and `optax.apply_updates` in the external optax
library; neither file is part of the verified sources, so those three
functions are modelled from the specification's description of them (see
their doc comments).
-/

namespace Treex

/-- A treex field annotation (the "kind" of a leaf: `Parameter`, `OptState`,
`State`, ...). The adapter only ever rewrites annotations to `OptState`;
the concrete inventory is irrelevant, a representative one is used. -/
inductive Ann where
  | Parameter
  | OptState
  | State
  | Rng
deriving DecidableEq, Repr

/-- A parameter/gradient pytree: annotated numeric leaves under a
container scaffold, with container children encoded as cons-cells. -/
inductive Tree where
  | leaf (ann : Ann) (x : ℚ)
  | nil
  | cons (head tail : Tree)
deriving DecidableEq, Repr

/-- The value skeleton of a tree: annotations erased, numeric data kept. -/
inductive PTree where
  | leaf (x : ℚ)
  | nil
  | cons (head tail : PTree)
deriving DecidableEq, Repr

/-- The metadata skeleton of a tree: numeric data erased, structure and
annotations kept. This is the "container/wrapper metadata" of the spec. -/
inductive MTree where
  | leaf (ann : Ann)
  | nil
  | cons (head tail : MTree)
deriving DecidableEq, Repr

/-- The bare shape of a tree. -/
inductive Shape where
  | leaf
  | nil
  | cons (head tail : Shape)
deriving DecidableEq, Repr

/-- The bare shape of a value skeleton. -/
def PTree.shape : PTree → Shape
  | .leaf _ => .leaf
  | .nil => .nil
  | .cons h t => .cons h.shape t.shape

/-- Map a function over the numeric leaves of a value skeleton. -/
def PTree.mapValues (f : ℚ → ℚ) : PTree → PTree
  | .leaf x => .leaf (f x)
  | .nil => .nil
  | .cons h t => .cons (h.mapValues f) (t.mapValues f)

namespace Tree

/-- Erase annotations, keeping the numeric data. -/
def data : Tree → PTree
  | .leaf _ x => .leaf x
  | .nil => .nil
  | .cons h t => .cons h.data t.data

/-- Erase numeric data, keeping structure and annotations. -/
def meta : Tree → MTree
  | .leaf a _ => .leaf a
  | .nil => .nil
  | .cons h t => .cons h.meta t.meta

/-- The bare shape of a tree. -/
def shape : Tree → Shape
  | .leaf _ _ => .leaf
  | .nil => .nil
  | .cons h t => .cons h.shape t.shape

/-- Map a function over the numeric leaves, preserving structure and
annotations (the shape of an elementwise optax transformation). -/
def mapValues (f : ℚ → ℚ) : Tree → Tree
  | .leaf a x => .leaf a (f x)
  | .nil => .nil
  | .cons h t => .cons (h.mapValues f) (t.mapValues f)

end Tree

/-- Modelled from the spec: `annotation_map` of `treex/tree_object.py`
(not among the verified sources). It remaps the field-to-leaf
classification annotations of a tree through `f`, leaving the container
structure and the numeric leaf values untouched. -/
def annotation_map (f : Ann → Ann) : Tree → Tree
  | .leaf a x => .leaf (f a) x
  | .nil => .nil
  | .cons h t => .cons (annotation_map f h) (annotation_map f t)

/-- Modelled from the spec: `module_update` of `treex/tree_object.py`
(not among the verified sources). It is the tree-reconstruction step: it
rebuilds the first tree's structure and wrapper metadata around the second
tree's numeric leaf values, failing on structural mismatch (such an error
propagates to the caller unchanged). -/
def module_update : Tree → Tree → Option Tree
  | .leaf a _, .leaf _ x => some (.leaf a x)
  | .nil, .nil => some .nil
  | .cons mh mt, .cons vh vt =>
      match module_update mh vh, module_update mt vt with
      | some h, some t => some (.cons h t)
      | _, _ => none
  | _, _ => none

/-- Modelled from the spec: `optax.apply_updates` of the external optax
library. It combines parameters with update deltas elementwise (addition
per leaf), mirroring the structure of its first argument, failing on
structural mismatch. -/
def optax_apply_updates : Tree → Tree → Option Tree
  | .leaf a p, .leaf _ u => some (.leaf a (p + u))
  | .nil, .nil => some .nil
  | .cons ph pt, .cons uh ut =>
      match optax_apply_updates ph uh, optax_apply_updates pt ut with
      | some h, some t => some (.cons h t)
      | _, _ => none
  | _, _ => none

/-- An optax gradient transformation: a pair of pure functions over an
opaque state type `σ`. -/
structure GradientTransformation (σ : Type) where
  init : Tree → σ
  update : Tree → σ → Option Tree → Tree × σ

/-- Environmental assumption on a wrapped transformation: its `init` and
`update` functions depend only on the numeric data of their tree
arguments, never on treex annotations (true of every real optax
transformation, which sees plain jax pytrees). -/
def data_oblivious {σ : Type} (t : GradientTransformation σ) : Prop :=
  (∀ p p', p.data = p'.data → t.init p = t.init p') ∧
  (∀ g g' s p p', g.data = g'.data → p.map Tree.data = p'.map Tree.data →
    (t.update g s p).1.data = (t.update g' s p').1.data ∧
    (t.update g s p).2 = (t.update g' s p').2)

/-- The failure modes of `Optimizer.apply_updates`: the `assert` on line
100, the `ValueError` on line 102, and structural errors propagated
unchanged from the wrapped library / tree reconstruction. -/
inductive OptError where
  | assertionError
  | valueError (msg : String)
  | structureError
deriving DecidableEq, Repr

/-- The `Optimizer` adapter (`treex/optimizer.py`, lines 16-120): wraps an
optax `GradientTransformation`, carrying the optimizer state (absent until
`init`) and the initialized flag. -/
structure Optimizer (σ : Type) where
  opt_state : Option σ
  optimizer : GradientTransformation σ
  _initialized : Bool

namespace Optimizer

variable {σ : Type}

/-- `Optimizer.__init__` (lines 57-64): `opt_state = None`, store the
wrapped transformation; the class-level default `_initialized = False`. -/
def new (optimizer : GradientTransformation σ) : Optimizer σ :=
  { opt_state := none, optimizer := optimizer, _initialized := false }

/-- The `initialized` property (lines 53-55). -/
def initialized (self : Optimizer σ) : Bool :=
  self._initialized

/-- `TreeObject.copy`: a value copy of the adapter. -/
def copy (self : Optimizer σ) : Optimizer σ :=
  self

/-- `Optimizer.init` (lines 66-80). Returns the pair
`(receiver after the call, returned new instance)`: the body copies the
receiver, rewrites the parameter annotations to `OptState`, initializes
the copy's state from the wrapped transformation and sets its flag; the
receiver itself is never written to. -/
def init (self : Optimizer σ) (params : Tree) : Optimizer σ × Optimizer σ :=
  let module := self.copy
  let params' := annotation_map (fun _ => Ann.OptState) params
  let module := { module with opt_state := some (module.optimizer.init params') }
  let module := { module with _initialized := true }
  (self, module)

/-- `Optimizer.apply_updates` (lines 86-120). Returns the pair
`(receiver after the call, result or error)`. The body: assert the state
is present (line 100); require `params` when updates are applied (lines
101-102); rewrite both trees' annotations to `OptState` (lines 104-105);
run the wrapped update and store the new state in place (lines 107-112);
either return the raw updates or combine them with the parameters (lines
114-118); rebuild the gradient tree's metadata around the output
(line 120). -/
def apply_updates (self : Optimizer σ) (grads : Tree) (params : Option Tree)
    (return_updates : Bool) : Optimizer σ × Except OptError Tree :=
  match self.opt_state with
  | none => (self, .error .assertionError)
  | some st =>
    if !return_updates && params.isNone then
      (self, .error (.valueError "params must be provided if updates are being applied"))
    else
      let opt_grads := annotation_map (fun _ => Ann.OptState) grads
      let opt_params := params.map (annotation_map (fun _ => Ann.OptState))
      let stepped := self.optimizer.update opt_grads st opt_params
      let param_updates := stepped.1
      let self := { self with opt_state := some stepped.2 }
      let output : Except OptError Tree :=
        if return_updates then .ok param_updates
        else
          match opt_params with
          | some p =>
            match optax_apply_updates p param_updates with
            | some t => .ok t
            | none => .error .structureError
          | none => .error .structureError
      match output with
      | .error e => (self, .error e)
      | .ok out =>
        match module_update grads out with
        | some r => (self, .ok r)
        | none => (self, .error .structureError)

end Optimizer

/-- The adapters reachable from construction by any sequence of `init`
and `apply_updates` calls (following either the receiver after a call or
a returned new instance). -/
inductive Reachable {σ : Type} (t : GradientTransformation σ) : Optimizer σ → Prop where
  | construct : Reachable t (Optimizer.new t)
  | initReceiver (o : Optimizer σ) (p : Tree) :
      Reachable t o → Reachable t (o.init p).1
  | initResult (o : Optimizer σ) (p : Tree) :
      Reachable t o → Reachable t (o.init p).2
  | applyReceiver (o : Optimizer σ) (g : Tree) (p : Option Tree) (r : Bool) :
      Reachable t o → Reachable t (o.apply_updates g p r).1

/-- Modelled from the spec: a transformation equivalent to plain gradient
descent with a fixed step size (`optax.sgd`): stateless (the state is the
empty tuple, modelled by `Unit`), deltas are `-step_size * g` elementwise. -/
def sgd (step_size : ℚ) : GradientTransformation Unit :=
  { init := fun _ => ()
    update := fun g s _ => (g.mapValues (fun x => -step_size * x), s) }

/-! ## Supporting lemmas about the tree helpers -/

theorem Tree.data_annotation_map (f : Ann → Ann) (t : Tree) :
    (annotation_map f t).data = t.data := by
  induction t with
  | leaf a x => rfl
  | nil => rfl
  | cons h t ih1 ih2 => simp [annotation_map, Tree.data, ih1, ih2]

theorem Tree.shape_eq_data_shape (t : Tree) : t.shape = t.data.shape := by
  induction t with
  | leaf a x => rfl
  | nil => rfl
  | cons h t ih1 ih2 => simp [Tree.shape, Tree.data, PTree.shape, ih1, ih2]

theorem Tree.shape_eq_of_data_eq {t t' : Tree} (h : t.data = t'.data) :
    t.shape = t'.shape := by
  rw [Tree.shape_eq_data_shape, Tree.shape_eq_data_shape, h]

theorem Tree.shape_annotation_map (f : Ann → Ann) (t : Tree) :
    (annotation_map f t).shape = t.shape :=
  Tree.shape_eq_of_data_eq (Tree.data_annotation_map f t)

theorem Tree.data_mapValues (f : ℚ → ℚ) (t : Tree) :
    (t.mapValues f).data = t.data.mapValues f := by
  induction t with
  | leaf a x => rfl
  | nil => rfl
  | cons h t ih1 ih2 => simp [Tree.mapValues, Tree.data, PTree.mapValues, ih1, ih2]

theorem module_update_isSome {m v : Tree} (h : m.shape = v.shape) :
    ∃ r, module_update m v = some r := by
  induction m generalizing v with
  | leaf a x => cases v <;> simp_all [Tree.shape, module_update]
  | nil => cases v <;> simp_all [Tree.shape, module_update]
  | cons mh mt ih1 ih2 =>
    cases v with
    | leaf a x => simp [Tree.shape] at h
    | nil => simp [Tree.shape] at h
    | cons vh vt =>
      simp only [Tree.shape, Shape.cons.injEq] at h
      obtain ⟨rh, hrh⟩ := ih1 h.1
      obtain ⟨rt, hrt⟩ := ih2 h.2
      exact ⟨.cons rh rt, by simp [module_update, hrh, hrt]⟩

theorem module_update_meta {m v r : Tree} (h : module_update m v = some r) :
    r.meta = m.meta := by
  induction m generalizing v r with
  | leaf a x => cases v <;> simp_all [module_update] <;> simp [← h, Tree.meta]
  | nil => cases v <;> simp_all [module_update]
  | cons mh mt ih1 ih2 =>
    cases v with
    | leaf a x => simp [module_update] at h
    | nil => simp [module_update] at h
    | cons vh vt =>
      rcases h1 : module_update mh vh with _ | rh <;>
        rcases h2 : module_update mt vt with _ | rt <;>
          simp [module_update, h1, h2] at h
      simp [← h, Tree.meta, ih1 h1, ih2 h2]

theorem module_update_data {m v r : Tree} (h : module_update m v = some r) :
    r.data = v.data := by
  induction m generalizing v r with
  | leaf a x => cases v <;> simp_all [module_update] <;> simp [← h, Tree.data]
  | nil => cases v <;> simp_all [module_update]
  | cons mh mt ih1 ih2 =>
    cases v with
    | leaf a x => simp [module_update] at h
    | nil => simp [module_update] at h
    | cons vh vt =>
      rcases h1 : module_update mh vh with _ | rh <;>
        rcases h2 : module_update mt vt with _ | rt <;>
          simp [module_update, h1, h2] at h
      simp [← h, Tree.data, ih1 h1, ih2 h2]

theorem optax_apply_updates_isSome {p u : Tree} (h : p.shape = u.shape) :
    ∃ r, optax_apply_updates p u = some r := by
  induction p generalizing u with
  | leaf a x => cases u <;> simp_all [Tree.shape, optax_apply_updates]
  | nil => cases u <;> simp_all [Tree.shape, optax_apply_updates]
  | cons ph pt ih1 ih2 =>
    cases u with
    | leaf a x => simp [Tree.shape] at h
    | nil => simp [Tree.shape] at h
    | cons uh ut =>
      simp only [Tree.shape, Shape.cons.injEq] at h
      obtain ⟨rh, hrh⟩ := ih1 h.1
      obtain ⟨rt, hrt⟩ := ih2 h.2
      exact ⟨.cons rh rt, by simp [optax_apply_updates, hrh, hrt]⟩

theorem optax_apply_updates_data_congr {p p' u u' : Tree}
    (hp : p.data = p'.data) (hu : u.data = u'.data) :
    Option.map Tree.data (optax_apply_updates p u) =
      Option.map Tree.data (optax_apply_updates p' u') := by
  induction p generalizing p' u u' with
  | leaf a x =>
    cases p' <;> simp_all [Tree.data]
    cases u <;> cases u' <;> simp_all [Tree.data, optax_apply_updates]
  | nil =>
    cases p' <;> simp_all [Tree.data]
    cases u <;> cases u' <;> simp_all [Tree.data, optax_apply_updates]
  | cons ph pt ih1 ih2 =>
    cases p' with
    | leaf a x => simp [Tree.data] at hp
    | nil => simp [Tree.data] at hp
    | cons ph' pt' =>
      simp only [Tree.data, PTree.cons.injEq] at hp
      cases u with
      | leaf b y =>
        cases u' <;> simp_all [Tree.data, optax_apply_updates]
      | nil =>
        cases u' <;> simp_all [Tree.data, optax_apply_updates]
      | cons uh ut =>
        cases u' with
        | leaf b y => simp [Tree.data] at hu
        | nil => simp [Tree.data] at hu
        | cons uh' ut' =>
          simp only [Tree.data, PTree.cons.injEq] at hu
          have e1 := ih1 hp.1 hu.1
          have e2 := ih2 hp.2 hu.2
          cases h1 : optax_apply_updates ph uh with
          | none =>
            rw [h1] at e1
            cases h1' : optax_apply_updates ph' uh' with
            | none => simp [optax_apply_updates, h1, h1']
            | some rh' => rw [h1'] at e1; simp at e1
          | some rh =>
            rw [h1] at e1
            cases h1' : optax_apply_updates ph' uh' with
            | none => rw [h1'] at e1; simp at e1
            | some rh' =>
              rw [h1'] at e1
              simp at e1
              cases h2 : optax_apply_updates pt ut with
              | none =>
                rw [h2] at e2
                cases h2' : optax_apply_updates pt' ut' with
                | none => simp [optax_apply_updates, h1, h1', h2, h2']
                | some rt' => rw [h2'] at e2; simp at e2
              | some rt =>
                rw [h2] at e2
                cases h2' : optax_apply_updates pt' ut' with
                | none => rw [h2'] at e2; simp at e2
                | some rt' =>
                  rw [h2'] at e2
                  simp at e2
                  simp [optax_apply_updates, h1, h1', h2, h2', Tree.data, e1, e2]

theorem optax_apply_updates_shape {p u r : Tree} (h : optax_apply_updates p u = some r) :
    r.shape = p.shape := by
  induction p generalizing u r with
  | leaf a x => cases u <;> simp_all [optax_apply_updates] <;> simp [← h, Tree.shape]
  | nil => cases u <;> simp_all [optax_apply_updates]
  | cons ph pt ih1 ih2 =>
    cases u with
    | leaf a x => simp [optax_apply_updates] at h
    | nil => simp [optax_apply_updates] at h
    | cons uh ut =>
      rcases h1 : optax_apply_updates ph uh with _ | rh <;>
        rcases h2 : optax_apply_updates pt ut with _ | rt <;>
          simp [optax_apply_updates, h1, h2] at h
      simp [← h, Tree.shape, ih1 h1, ih2 h2]

theorem sgd_data_oblivious (step_size : ℚ) : data_oblivious (sgd step_size) := by
  constructor
  · intro p p' _
    rfl
  · intro g g' s p p' hg _
    refine ⟨?_, rfl⟩
    simp [sgd, Tree.data_mapValues, hg]

/-! ## Evaluation lemmas for `Optimizer.apply_updates` -/

theorem apply_updates_true_eval {σ : Type} (o : Optimizer σ) (g p : Tree) (st : σ) (r : Tree)
    (h0 : o.opt_state = some st)
    (hr : module_update g
      (o.optimizer.update (annotation_map (fun _ => Ann.OptState) g) st
        (some (annotation_map (fun _ => Ann.OptState) p))).1 = some r) :
    o.apply_updates g (some p) true =
      ({ o with opt_state := some ((o.optimizer.update
          (annotation_map (fun _ => Ann.OptState) g) st
          (some (annotation_map (fun _ => Ann.OptState) p))).2) }, Except.ok r) := by
  simp [Optimizer.apply_updates, h0, hr]

theorem apply_updates_false_eval {σ : Type} (o : Optimizer σ) (g p : Tree) (st : σ)
    (c r : Tree) (h0 : o.opt_state = some st)
    (hc : optax_apply_updates (annotation_map (fun _ => Ann.OptState) p)
      (o.optimizer.update (annotation_map (fun _ => Ann.OptState) g) st
        (some (annotation_map (fun _ => Ann.OptState) p))).1 = some c)
    (hr : module_update g c = some r) :
    o.apply_updates g (some p) false =
      ({ o with opt_state := some ((o.optimizer.update
          (annotation_map (fun _ => Ann.OptState) g) st
          (some (annotation_map (fun _ => Ann.OptState) p))).2) }, Except.ok r) := by
  simp [Optimizer.apply_updates, h0, hc, hr]

theorem apply_updates_true_none_eval {σ : Type} (o : Optimizer σ) (g : Tree) (st : σ)
    (r : Tree) (h0 : o.opt_state = some st)
    (hr : module_update g
      (o.optimizer.update (annotation_map (fun _ => Ann.OptState) g) st none).1 = some r) :
    o.apply_updates g none true =
      ({ o with opt_state := some ((o.optimizer.update
          (annotation_map (fun _ => Ann.OptState) g) st none).2) }, Except.ok r) := by
  simp [Optimizer.apply_updates, h0, hr]

theorem apply_updates_receiver_initialized {σ : Type} (o : Optimizer σ) (g : Tree)
    (p : Option Tree) (ru : Bool) (st : σ) (h0 : o.opt_state = some st)
    (hc : (!ru && p.isNone) = false) :
    (o.apply_updates g p ru).1 =
      { o with opt_state := some ((o.optimizer.update
          (annotation_map (fun _ => Ann.OptState) g) st
          (p.map (annotation_map (fun _ => Ann.OptState)))).2) } := by
  cases ru with
  | true =>
    cases hm : module_update g (o.optimizer.update
        (annotation_map (fun _ => Ann.OptState) g) st
        (p.map (annotation_map (fun _ => Ann.OptState)))).1 with
    | none => simp [Optimizer.apply_updates, h0, hm]
    | some r => simp [Optimizer.apply_updates, h0, hm]
  | false =>
    cases p with
    | none => simp at hc
    | some q =>
      cases hc2 : optax_apply_updates (annotation_map (fun _ => Ann.OptState) q)
          (o.optimizer.update (annotation_map (fun _ => Ann.OptState) g) st
            (some (annotation_map (fun _ => Ann.OptState) q))).1 with
      | none => simp [Optimizer.apply_updates, h0, hc2]
      | some c =>
        cases hm : module_update g c with
        | none => simp [Optimizer.apply_updates, h0, hc2, hm]
        | some r => simp [Optimizer.apply_updates, h0, hc2, hm]

/-! ## The claims -/

/-- C3 counterexample: the claim quantifies over *every* adapter, but on an
adapter that was never initialized the call `apply_updates(g, None, False)`
fails with the assertion error of line 100, not with the
invalid-argument `ValueError` of line 102. -/
theorem apply_updates_missing_params_uninitialized_counterexample :
    ((Optimizer.new (sgd 1)).apply_updates (Tree.leaf Ann.Parameter 0) none false).2 =
      Except.error OptError.assertionError ∧
    (Except.error OptError.assertionError : Except OptError Tree) ≠
      Except.error (OptError.valueError
        "params must be provided if updates are being applied") := by
  exact ⟨rfl, by simp⟩

/-- C3 (amended): for every *initialized* adapter and every gradient tree,
`apply_updates(g, params=None, return_updates=False)` fails with the
invalid-argument error "params must be provided if updates are being
applied". -/
theorem apply_updates_missing_params_error {σ : Type} (o : Optimizer σ) (g : Tree) (st : σ)
    (h0 : o.opt_state = some st) :
    (o.apply_updates g none false).2 =
      Except.error (OptError.valueError
        "params must be provided if updates are being applied") := by
  simp [Optimizer.apply_updates, h0]

theorem apply_updates_missing_params_error_witness :
    ((((Optimizer.new (sgd 1)).init (Tree.leaf Ann.Parameter 0)).2).apply_updates
        (Tree.leaf Ann.Parameter 1) none false).2 =
      Except.error (OptError.valueError
        "params must be provided if updates are being applied") :=
  apply_updates_missing_params_error _ _ () rfl

/-- C4: on an adapter whose internal state is absent (`init` never called),
`apply_updates` fails with the assertion failure of line 100 for any
combination of grads, params and return_updates, leaving the receiver
unchanged. -/
theorem apply_updates_requires_init {σ : Type} (o : Optimizer σ) (g : Tree)
    (p : Option Tree) (r : Bool) (h0 : o.opt_state = none) :
    o.apply_updates g p r = (o, Except.error OptError.assertionError) := by
  simp [Optimizer.apply_updates, h0]

theorem apply_updates_requires_init_witness :
    (Optimizer.new (sgd 1)).apply_updates (Tree.leaf Ann.Parameter 1)
        (some (Tree.leaf Ann.Parameter 0)) true =
      (Optimizer.new (sgd 1), Except.error OptError.assertionError) :=
  apply_updates_requires_init _ _ _ _ rfl

/-- C6: `init` leaves the receiver completely unchanged: its state field,
its initialized flag and its wrapped-transformation reference are the same
after the call as before (the method mutates only a copy). -/
theorem init_receiver_unchanged {σ : Type} (o : Optimizer σ) (p : Tree) :
    ((o.init p).1).opt_state = o.opt_state ∧
    ((o.init p).1)._initialized = o._initialized ∧
    ((o.init p).1).optimizer = o.optimizer :=
  ⟨rfl, rfl, rfl⟩

/-- C10: when `apply_updates` fails with the missing-params `ValueError`
(initialized adapter, `params = None`, `return_updates = False`), the
adapter's internal state is left unchanged: the validation on lines
101-102 precedes the wrapped update call on lines 108-112. -/
theorem apply_updates_missing_params_state_unchanged {σ : Type} (o : Optimizer σ)
    (g : Tree) (st : σ) (h0 : o.opt_state = some st) :
    (o.apply_updates g none false).1 = o := by
  simp [Optimizer.apply_updates, h0]

theorem apply_updates_missing_params_state_unchanged_witness :
    ((((Optimizer.new (sgd 1)).init (Tree.leaf Ann.Parameter 0)).2).apply_updates
        (Tree.leaf Ann.Parameter 1) none false).1 =
      ((Optimizer.new (sgd 1)).init (Tree.leaf Ann.Parameter 0)).2 :=
  apply_updates_missing_params_state_unchanged _ _ () rfl

/-- C5: for every parameter tree `P`, `init P` returns a new adapter whose
initialized flag is true and whose internal state is the state the wrapped
transformation's `init` produces for `P` (equal on the nose, given that the
wrapped transformation reads only the numeric data of its argument, as
every real optax transformation does). -/
theorem init_correct {σ : Type} (o : Optimizer σ) (P : Tree)
    (hobl : data_oblivious o.optimizer) :
    ((o.init P).2)._initialized = true ∧
    ((o.init P).2).opt_state = some (o.optimizer.init P) := by
  refine ⟨rfl, ?_⟩
  show some (o.optimizer.init (annotation_map (fun _ => Ann.OptState) P)) = _
  rw [hobl.1 _ _ (Tree.data_annotation_map _ _)]

theorem init_correct_witness :
    (((Optimizer.new (sgd 2)).init (Tree.cons (Tree.leaf Ann.Parameter 0) Tree.nil)).2)._initialized
        = true ∧
    (((Optimizer.new (sgd 2)).init (Tree.cons (Tree.leaf Ann.Parameter 0) Tree.nil)).2).opt_state
        = some ((Optimizer.new (sgd 2)).optimizer.init
            (Tree.cons (Tree.leaf Ann.Parameter 0) Tree.nil)) :=
  init_correct _ _ (sgd_data_oblivious 2)

/-- C1: for every initialized adapter with internal state `S0` whose
wrapped transformation reads only numeric data and produces
shape-compatible deltas, `apply_updates g (some p) true` returns exactly
(data-wise) the deltas the wrapped update computes from `(g, S0, p)`, and
stores the new state returned by that update call as the adapter's
internal state. -/
theorem apply_updates_return_updates_correct {σ : Type} (o : Optimizer σ) (g p : Tree)
    (S0 : σ) (h0 : o.opt_state = some S0)
    (hobl : data_oblivious o.optimizer)
    (hsh : (o.optimizer.update g S0 (some p)).1.shape = g.shape) :
    ∃ r, o.apply_updates g (some p) true =
        ({ o with opt_state := some ((o.optimizer.update g S0 (some p)).2) }, Except.ok r) ∧
      r.data = (o.optimizer.update g S0 (some p)).1.data := by
  obtain ⟨hd, hs⟩ := hobl.2 (annotation_map (fun _ => Ann.OptState) g) g S0
    (some (annotation_map (fun _ => Ann.OptState) p)) (some p)
    (Tree.data_annotation_map _ _) (by simp [Tree.data_annotation_map])
  have hshape : g.shape =
      (o.optimizer.update (annotation_map (fun _ => Ann.OptState) g) S0
        (some (annotation_map (fun _ => Ann.OptState) p))).1.shape := by
    rw [Tree.shape_eq_of_data_eq hd, hsh]
  obtain ⟨r, hr⟩ := module_update_isSome hshape
  refine ⟨r, ?_, ?_⟩
  · rw [apply_updates_true_eval o g p S0 r h0 hr, hs]
  · rw [module_update_data hr, hd]

theorem apply_updates_return_updates_correct_witness :
    ∃ r, (((Optimizer.new (sgd 3)).init (Tree.cons (Tree.leaf Ann.Parameter 0) Tree.nil)).2).apply_updates
          (Tree.cons (Tree.leaf Ann.Parameter 1) Tree.nil)
          (some (Tree.cons (Tree.leaf Ann.Parameter 0) Tree.nil)) true =
        ({ ((Optimizer.new (sgd 3)).init (Tree.cons (Tree.leaf Ann.Parameter 0) Tree.nil)).2 with
            opt_state := some (((((Optimizer.new (sgd 3)).init
              (Tree.cons (Tree.leaf Ann.Parameter 0) Tree.nil)).2).optimizer.update
                (Tree.cons (Tree.leaf Ann.Parameter 1) Tree.nil) ()
                (some (Tree.cons (Tree.leaf Ann.Parameter 0) Tree.nil))).2) }, Except.ok r) ∧
      r.data = (((((Optimizer.new (sgd 3)).init
          (Tree.cons (Tree.leaf Ann.Parameter 0) Tree.nil)).2).optimizer.update
            (Tree.cons (Tree.leaf Ann.Parameter 1) Tree.nil) ()
            (some (Tree.cons (Tree.leaf Ann.Parameter 0) Tree.nil))).1).data :=
  apply_updates_return_updates_correct _ _ _ () rfl (sgd_data_oblivious 3) (by decide)

/-- C2: for every initialized adapter with internal state `S0` (same
environmental assumptions as C1, plus grads and params of equal shape),
`apply_updates g (some p) false` returns (data-wise) `p` combined
elementwise, via the wrapped library's `apply_updates` rule, with the very
deltas that `return_updates = true` returns, and the receiver after the
call is identical to the receiver after the `return_updates = true` call:
the state transition does not depend on the flag. -/
theorem apply_updates_apply_correct {σ : Type} (o : Optimizer σ) (g p : Tree) (S0 : σ)
    (h0 : o.opt_state = some S0)
    (hobl : data_oblivious o.optimizer)
    (hsh : (o.optimizer.update g S0 (some p)).1.shape = g.shape)
    (hpg : p.shape = g.shape) :
    ∃ d r c, (o.apply_updates g (some p) true).2 = Except.ok d ∧
      (o.apply_updates g (some p) false).2 = Except.ok r ∧
      optax_apply_updates p d = some c ∧
      r.data = c.data ∧
      (o.apply_updates g (some p) false).1 = (o.apply_updates g (some p) true).1 := by
  obtain ⟨hd, hs⟩ := hobl.2 (annotation_map (fun _ => Ann.OptState) g) g S0
    (some (annotation_map (fun _ => Ann.OptState) p)) (some p)
    (Tree.data_annotation_map _ _) (by simp [Tree.data_annotation_map])
  have hshape : g.shape =
      (o.optimizer.update (annotation_map (fun _ => Ann.OptState) g) S0
        (some (annotation_map (fun _ => Ann.OptState) p))).1.shape := by
    rw [Tree.shape_eq_of_data_eq hd, hsh]
  obtain ⟨d, hdid⟩ := module_update_isSome hshape
  have htrue := apply_updates_true_eval o g p S0 d h0 hdid
  have hpshape : (annotation_map (fun _ => Ann.OptState) p).shape =
      (o.optimizer.update (annotation_map (fun _ => Ann.OptState) g) S0
        (some (annotation_map (fun _ => Ann.OptState) p))).1.shape := by
    rw [Tree.shape_annotation_map, hpg, hshape]
  obtain ⟨c', hc'⟩ := optax_apply_updates_isSome hpshape
  have hcshape : g.shape = c'.shape := by
    rw [optax_apply_updates_shape hc', Tree.shape_annotation_map, hpg]
  obtain ⟨r, hrid⟩ := module_update_isSome hcshape
  have hfalse := apply_updates_false_eval o g p S0 c' r h0 hc' hrid
  have hdp : p.shape = d.shape := by
    rw [Tree.shape_eq_of_data_eq (module_update_data hdid), ← hshape, hpg]
  obtain ⟨c, hcid⟩ := optax_apply_updates_isSome hdp
  refine ⟨d, r, c, ?_, ?_, hcid, ?_, ?_⟩
  · rw [htrue]
  · rw [hfalse]
  · have hcongr := optax_apply_updates_data_congr
      (Tree.data_annotation_map (fun _ => Ann.OptState) p).symm
      (module_update_data hdid)
    rw [hcid, hc'] at hcongr
    simp only [Option.map_some', Option.some.injEq] at hcongr
    rw [module_update_data hrid, hcongr]
  · rw [htrue, hfalse]

theorem apply_updates_apply_correct_witness :
    ∃ d r c, ((((Optimizer.new (sgd 3)).init (Tree.cons (Tree.leaf Ann.Parameter 0) Tree.nil)).2).apply_updates
          (Tree.cons (Tree.leaf Ann.Parameter 1) Tree.nil)
          (some (Tree.cons (Tree.leaf Ann.Parameter 5) Tree.nil)) true).2 = Except.ok d ∧
      ((((Optimizer.new (sgd 3)).init (Tree.cons (Tree.leaf Ann.Parameter 0) Tree.nil)).2).apply_updates
          (Tree.cons (Tree.leaf Ann.Parameter 1) Tree.nil)
          (some (Tree.cons (Tree.leaf Ann.Parameter 5) Tree.nil)) false).2 = Except.ok r ∧
      optax_apply_updates (Tree.cons (Tree.leaf Ann.Parameter 5) Tree.nil) d = some c ∧
      r.data = c.data ∧
      ((((Optimizer.new (sgd 3)).init (Tree.cons (Tree.leaf Ann.Parameter 0) Tree.nil)).2).apply_updates
          (Tree.cons (Tree.leaf Ann.Parameter 1) Tree.nil)
          (some (Tree.cons (Tree.leaf Ann.Parameter 5) Tree.nil)) false).1 =
        ((((Optimizer.new (sgd 3)).init (Tree.cons (Tree.leaf Ann.Parameter 0) Tree.nil)).2).apply_updates
          (Tree.cons (Tree.leaf Ann.Parameter 1) Tree.nil)
          (some (Tree.cons (Tree.leaf Ann.Parameter 5) Tree.nil)) true).1 :=
  apply_updates_apply_correct _ _ _ () rfl (sgd_data_oblivious 3) (by decide) (by decide)

/-- C7: whenever `apply_updates` returns successfully, the returned tree's
structure and wrapper metadata (its metadata skeleton) mirror those of the
state-annotated gradient tree it reconstructs from (line 120), so outer
container/wrapper metadata is preserved rather than flattened. -/
theorem apply_updates_preserves_metadata {σ : Type} (o : Optimizer σ) (g : Tree)
    (p : Option Tree) (ru : Bool) (r : Tree)
    (h : (o.apply_updates g p ru).2 = Except.ok r) :
    r.meta = g.meta := by
  cases h0 : o.opt_state with
  | none => simp [Optimizer.apply_updates, h0] at h
  | some st =>
    cases ru with
    | false =>
      cases p with
      | none => simp [Optimizer.apply_updates, h0] at h
      | some q =>
        cases hc : optax_apply_updates (annotation_map (fun _ => Ann.OptState) q)
            (o.optimizer.update (annotation_map (fun _ => Ann.OptState) g) st
              (some (annotation_map (fun _ => Ann.OptState) q))).1 with
        | none => simp [Optimizer.apply_updates, h0, hc] at h
        | some c =>
          cases hm : module_update g c with
          | none => simp [Optimizer.apply_updates, h0, hc, hm] at h
          | some r' =>
            rw [apply_updates_false_eval o g q st c r' h0 hc hm] at h
            simp only [Except.ok.injEq] at h
            rw [← h]
            exact module_update_meta hm
    | true =>
      cases p with
      | none =>
        cases hm : module_update g
            (o.optimizer.update (annotation_map (fun _ => Ann.OptState) g) st none).1 with
        | none => simp [Optimizer.apply_updates, h0, hm] at h
        | some r' =>
          rw [apply_updates_true_none_eval o g st r' h0 hm] at h
          simp only [Except.ok.injEq] at h
          rw [← h]
          exact module_update_meta hm
      | some q =>
        cases hm : module_update g
            (o.optimizer.update (annotation_map (fun _ => Ann.OptState) g) st
              (some (annotation_map (fun _ => Ann.OptState) q))).1 with
        | none => simp [Optimizer.apply_updates, h0, hm] at h
        | some r' =>
          rw [apply_updates_true_eval o g q st r' h0 hm] at h
          simp only [Except.ok.injEq] at h
          rw [← h]
          exact module_update_meta hm

theorem apply_updates_preserves_metadata_witness :
    (Tree.cons (Tree.leaf Ann.Parameter (-3)) Tree.nil).meta =
      (Tree.cons (Tree.leaf Ann.Parameter 1) Tree.nil).meta :=
  apply_updates_preserves_metadata
    (((Optimizer.new (sgd 3)).init (Tree.cons (Tree.leaf Ann.Parameter 0) Tree.nil)).2)
    (Tree.cons (Tree.leaf Ann.Parameter 1) Tree.nil)
    (some (Tree.cons (Tree.leaf Ann.Parameter 5) Tree.nil)) true
    (Tree.cons (Tree.leaf Ann.Parameter (-3)) Tree.nil)
    (by simp [Optimizer.new, Optimizer.init, Optimizer.copy, Optimizer.apply_updates,
      annotation_map, sgd, Tree.mapValues, module_update])

/-- C8: for an adapter wrapping plain gradient descent with fixed step
size, `init {"w": 0.0}` followed by `apply_updates {"w": 1.0} {"w": 0.0}`
returns `{"w": -step_size}`, and the internal state keeps the same shape
across the call (the empty state tuple of a stateless transformation,
modelled by `Unit`: it is `some ()` both before and after). -/
theorem sgd_example_scenario (step_size : ℚ) :
    (((Optimizer.new (sgd step_size)).init
        (Tree.cons (Tree.leaf Ann.Parameter 0) Tree.nil)).2).apply_updates
        (Tree.cons (Tree.leaf Ann.Parameter 1) Tree.nil)
        (some (Tree.cons (Tree.leaf Ann.Parameter 0) Tree.nil)) false =
      ({ opt_state := some (), optimizer := sgd step_size, _initialized := true },
        Except.ok (Tree.cons (Tree.leaf Ann.Parameter (-step_size)) Tree.nil)) := by
  simp [Optimizer.new, Optimizer.init, Optimizer.copy, Optimizer.apply_updates,
    annotation_map, sgd, Tree.mapValues, optax_apply_updates, module_update]

/-- C9: in every reachable adapter state the internal optimizer state is
absent exactly while the initialized flag is unset; a freshly constructed
adapter has state `None` and initialized false, and an adapter whose state
was populated by `init` has initialized true. -/
theorem reachable_state_invariant {σ : Type} (t : GradientTransformation σ)
    (o : Optimizer σ) (h : Reachable t o) :
    (o.opt_state = none ↔ o._initialized = false) ∧
    (Optimizer.new t).opt_state = none ∧
    (Optimizer.new t)._initialized = false ∧
    ∀ P : Tree, ((o.init P).2)._initialized = true ∧
      ((o.init P).2).opt_state.isSome = true := by
  refine ⟨?_, rfl, rfl, fun P => ⟨rfl, rfl⟩⟩
  induction h with
  | construct => simp [Optimizer.new]
  | initReceiver o' p hr ih => exact ih
  | initResult o' p hr ih => simp [Optimizer.init, Optimizer.copy]
  | applyReceiver o' g p r hr ih =>
    cases h0 : o'.opt_state with
    | none => simpa [Optimizer.apply_updates, h0] using ih
    | some st =>
      have hflag : ¬o'._initialized = false := by
        intro hf
        have hn := ih.mpr hf
        rw [h0] at hn
        exact Option.noConfusion hn
      by_cases hcond : (!r && p.isNone) = true
      · have hrecv : (o'.apply_updates g p r).1 = o' := by
          cases r with
          | false =>
            cases p with
            | none => simp [Optimizer.apply_updates, h0]
            | some q => simp at hcond
          | true => simp at hcond
        rw [hrecv]
        exact ih
      · have hcond' : (!r && p.isNone) = false := by
          cases hb : (!r && p.isNone)
          · rfl
          · exact absurd hb hcond
        rw [apply_updates_receiver_initialized o' g p r st h0 hcond']
        simp [hflag]

theorem reachable_state_invariant_witness :
    ((Optimizer.new (sgd 1)).opt_state = none ↔
      (Optimizer.new (sgd 1))._initialized = false) ∧
    (Optimizer.new (sgd 1)).opt_state = none ∧
    (Optimizer.new (sgd 1))._initialized = false ∧
    ∀ P : Tree, (((Optimizer.new (sgd 1)).init P).2)._initialized = true ∧
      (((Optimizer.new (sgd 1)).init P).2).opt_state.isSome = true :=
  reachable_state_invariant (sgd 1) (Optimizer.new (sgd 1)) Reachable.construct

end Treex
